import Mathlib

/-!
Verification development for the PyZKTecoClocks fleet-synchronization core.

Each Lean definition below is a shallow embedding of a function of the Python
sources under `src/`, translated function by function.  Machine integers are
modelled as `Nat`/`Int`, Python `datetime` values as a record of calendar
fields compared lexicographically, fallible code as `Option`/`Except`, and the
two CPython binary64 float operations appearing in `SharedState.calculate_progress`
as exact rational arithmetic composed with explicit round-to-nearest-even at
53 bits of precision.  File and network I/O is made explicit: file contents
are passed in as lists of lines/records and network operations as outcome
streams, so that every embedded function is executable.
-/

/-! ## Python string primitives

Embeddings of the Python `str` operations used by the sources:
`str.strip` (drop ASCII whitespace at both ends), `str.split(" - ")`
(split on non-overlapping occurrences of the three-character separator,
left to right), `str.zfill` and `str.lower`.
-/

/-- Characters removed by Python `str.strip()` (ASCII subset; the sources only
ever strip ASCII whitespace such as spaces and the trailing newline). -/
def isPySpace (c : Char) : Bool :=
  c = ' ' || c = '\t' || c = '\n' || c = '\r' || c = '\x0b' || c = '\x0c'

/-- Python `str.strip()` on the character list of a string. -/
def pyStrip (cs : List Char) : List Char :=
  ((cs.dropWhile isPySpace).reverse.dropWhile isPySpace).reverse

/-- Worker for `splitDash`: Python `str.split(" - ")`, scanning left to right
for non-overlapping occurrences of the separator `" - "`. -/
def splitDashAux : List Char → List Char → List (List Char)
  | ' ' :: '-' :: ' ' :: rest, acc => acc.reverse :: splitDashAux rest []
  | c :: rest, acc => splitDashAux rest (c :: acc)
  | [], acc => [acc.reverse]

/-- Python `line.split(" - ")` as used by `organize_devices_info`,
`update_battery_status` and `update_device_name`. -/
def splitDash (cs : List Char) : List String :=
  (splitDashAux cs []).map (fun p => String.mk p)

/-- Python `str.zfill(width)` for a non-negative numeral string
(the sources only apply it to `str(user_id)` with `user_id : ℕ`). -/
def zfill (s : String) (width : ℕ) : String :=
  String.mk (List.replicate (width - s.length) '0' ++ s.data)

/-- Python `str.lower()` (ASCII: the flag literals compared against are
ASCII words such as "true", "si"). -/
def pyLower (s : String) : String :=
  String.mk (s.data.map Char.toLower)

/-! ## Python `datetime` values

`datetime.datetime` objects compare by lexicographic comparison of their
field tuple `(year, month, day, hour, minute, second, microsecond)`.
-/

/-- A Python `datetime.datetime` value. -/
structure PyDateTime where
  year : ℕ
  month : ℕ
  day : ℕ
  hour : ℕ
  minute : ℕ
  second : ℕ
  micro : ℕ
deriving DecidableEq, Repr

/-- Python `<` on `datetime` values: lexicographic comparison of the field
tuples. -/
def dtLt (a b : PyDateTime) : Bool :=
  if a.year ≠ b.year then a.year < b.year
  else if a.month ≠ b.month then a.month < b.month
  else if a.day ≠ b.day then a.day < b.day
  else if a.hour ≠ b.hour then a.hour < b.hour
  else if a.minute ≠ b.minute then a.minute < b.minute
  else if a.second ≠ b.second then a.second < b.second
  else a.micro < b.micro

/-- Python `<=` on `datetime` values. -/
def dtLe (a b : PyDateTime) : Bool :=
  dtLt a b || a = b

/-- Leap-year test of the Gregorian calendar (as implemented by
`datetime`/`dateutil`). -/
def isLeap (y : ℕ) : Bool :=
  y % 4 = 0 && (y % 100 ≠ 0 || y % 400 = 0)

/-- Number of days of month `m` of year `y`. -/
def daysInMonth (y m : ℕ) : ℕ :=
  if m = 2 then (if isLeap y then 29 else 28)
  else if m = 4 ∨ m = 6 ∨ m = 9 ∨ m = 11 then 30
  else 31

/-- `dateutil.relativedelta`: `d - relativedelta(months=3)`.  The month is
moved back by three (borrowing from the year when needed) and the day is
clamped to the length of the resulting month; time fields are unchanged. -/
def subThreeMonths (d : PyDateTime) : PyDateTime :=
  let ym : ℕ × ℕ := if 3 < d.month then (d.year, d.month - 3) else (d.year - 1, d.month + 9)
  ⟨ym.1, ym.2, min d.day (daysInMonth ym.1 ym.2), d.hour, d.minute, d.second, d.micro⟩

/-! ## `attendances_manager.py`: status mapping and punch formatting

`attendance_status_dictionary` is built from the three labels of the
`[Attendance_status]` section of `config.ini`; the configuration is a
parameter of the embedding.
-/

/-- The three labels read from `config['Attendance_status']`. -/
structure AttendanceStatusConfig where
  status_fingerprint : String
  status_face : String
  status_card : String
deriving DecidableEq, Repr

/-- Result of `maping_dictionary`: either a configured label (a Python `str`)
or the Python `int` it falls back to for codes outside the dictionary. -/
inductive MappedStatus where
  | label : String → MappedStatus
  | num : ℤ → MappedStatus
deriving DecidableEq, Repr

/-- The module-level dictionary of `attendances_manager.py` (lines 137-143):
keys 1, 15, 0, 2, 4 mapped to the fingerprint / face / card labels. -/
def attendance_status_dictionary (cfg : AttendanceStatusConfig) : List (ℤ × String) :=
  [(1, cfg.status_fingerprint), (15, cfg.status_face),
   (0, cfg.status_card), (2, cfg.status_card), (4, cfg.status_card)]

/-- `maping_dictionary` of `attendances_manager.py` (lines 146-152): a key
present in the dictionary is translated to its label; any other number
returns the Python `int` `0`. -/
def maping_dictionary (cfg : AttendanceStatusConfig) (number : ℤ) : MappedStatus :=
  match (attendance_status_dictionary cfg).lookup number with
  | some v => .label v
  | none => .num 0

/-- `is_three_months_old` of `attendances_manager.py` (lines 154-157); the
`datetime.now()` it calls is the `now` parameter. -/
def is_three_months_old (timestamp now : PyDateTime) : Bool :=
  dtLe timestamp (subThreeMonths now)

/-- `is_in_the_future` of `attendances_manager.py` (lines 159-161); the
`datetime.now()` it calls is the `now` parameter. -/
def is_in_the_future (timestamp now : PyDateTime) : Bool :=
  dtLt now timestamp

/-- A raw punch as returned by the transport client and re-packed by
`ConnectionManager.get_attendances` (fields `user_id`, `timestamp`,
`status`). -/
structure RawAttendance where
  user_id : ℕ
  timestamp : PyDateTime
  status : ℤ
deriving DecidableEq, Repr

/-- A formatted punch dictionary as built by `format_attendances`. -/
structure FormattedAttendance where
  user_id : String
  timestamp : String
  id : String
  status : MappedStatus
deriving DecidableEq, Repr

/-- Decimal numeral of `n` left-padded with zeros to `w` digits, for
`strftime` fields. -/
def padNum (n w : ℕ) : String :=
  zfill (Nat.repr n) w

/-- Python `timestamp.strftime("%d/%m/%Y %H:%M")`. -/
def strftimeDDMMYYYYHHMM (d : PyDateTime) : String :=
  padNum d.day 2 ++ "/" ++ padNum d.month 2 ++ "/" ++ padNum d.year 4 ++ " " ++
    padNum d.hour 2 ++ ":" ++ padNum d.minute 2

/-- One iteration of the loop of `format_attendances`: the formatted record
appended to the output, and, when one of the two anomaly predicates fires,
also appended to the warning log (`BaseError(2003, ..., level="warning")`). -/
def format_one (cfg : AttendanceStatusConfig) (id : String)
    (a : RawAttendance) : FormattedAttendance :=
  ⟨zfill (Nat.repr a.user_id) 9, strftimeDDMMYYYYHHMM a.timestamp, id,
    maping_dictionary cfg a.status⟩

/-- `format_attendances` of `attendances_manager.py` (lines 163-176).  Returns
the formatted list together with the list of records reported as anomalous
warnings; every record is appended to the output before the anomaly check, so
flagged records are kept.  Each `datetime.now()` of the two predicate calls is
modelled by the single retrieval time `now`. -/
def format_attendances (cfg : AttendanceStatusConfig) (attendances : List RawAttendance)
    (id : String) (now : PyDateTime) : List FormattedAttendance × List FormattedAttendance :=
  match attendances with
  | [] => ([], [])
  | a :: rest =>
    let rec_a := format_one cfg id a
    let tail := format_attendances cfg rest id now
    (rec_a :: tail.1,
      if is_three_months_old a.timestamp now || is_in_the_future a.timestamp now
      then rec_a :: tail.2 else tail.2)

/-! ## `shared_state.py`: the progress tracker

`SharedState.calculate_progress` computes
`int((self.processed_devices / self.total_devices) * 100)` on CPython, i.e.
with IEEE 754 binary64 arithmetic: `/` on two Python ints yields the
correctly rounded binary64 value of the exact quotient, `* 100` rounds the
exact product, and `int` truncates toward zero.  The embedding performs the
exact rational computation composed with explicit round-to-nearest,
ties-to-even at 53 significant bits.  The exponent is unbounded (binary64
overflow and subnormals are not reachable at fleet-scale device counts, and
CPython raises `OverflowError` rather than returning a number once the
quotient leaves the binary64 range). -/

/-- Round a rational to the nearest integer, ties to even. -/
def roundHalfEven (x : ℚ) : ℤ :=
  let f := ⌊x⌋
  if x - f < 1/2 then f
  else if 1/2 < x - f then f + 1
  else if 2 ∣ f then f else f + 1

/-- Round a positive rational to 53 binary digits of precision
(round-to-nearest, ties-to-even): the binary64 rounding of `x`, with
unbounded exponent range. -/
def flPos (x : ℚ) : ℚ :=
  let e := Int.log 2 x
  (roundHalfEven (x * 2 ^ (52 - e)) : ℚ) * 2 ^ (e - 52)

/-- Binary64 rounding of a rational (unbounded exponent range). -/
def fl (x : ℚ) : ℚ :=
  if 0 < x then flPos x
  else if x < 0 then -flPos (-x)
  else 0

/-- `SharedState.calculate_progress` of `shared_state.py` (lines 49-64):
`int((processed / total) * 100)` when `total > 0`, otherwise `0`.  The two
binary64 operations are the rounded division and the rounded product; `int`
truncation coincides with the floor on these non-negative values. -/
def calculate_progress (processed total : ℕ) : ℤ :=
  if 0 < total then ⌊fl (fl ((processed : ℚ) / (total : ℚ)) * 100)⌋ else 0

/-- `SharedState.increment_processed_devices` of `shared_state.py`
(lines 34-47) on the processed-devices counter: add one and return the new
count. -/
def increment_processed_devices (processed : ℕ) : ℕ :=
  processed + 1

/-! ## `connection_manager.py`: retry with exponential backoff

`connect_with_retry` (lines 114-142) calls `self.connect()` up to
`max_attempts` times; a `ConnectionRefusedError` on the last attempt is
converted to a `NetworkError` naming the device IP, earlier failures sleep
`__exponential_backoff(attempt)` seconds and retry.  The transport outcome of
the `n`-th `connect()` call is the `n`-th value of the `connects` stream, and
the `random.uniform(0, 3)` sample drawn before the `n`-th sleep is
`jitter n`. -/

/-- Result of `connect_with_retry`: a live connection, the terminal
`NetworkError` naming the device IP, or the defensive
`BaseError(0000, "Codigo inalcanzable")` reached only when the loop body
never runs (`max_attempts = 0`). -/
inductive ConnectRetryResult where
  | connected
  | network_error : String → ConnectRetryResult
  | base_unreachable
deriving DecidableEq, Repr

/-- `ConnectionManager.__exponential_backoff` (lines 195-212): sleep
`min(2 ** attempt + random.uniform(0, 3), 30)` seconds, where `u` is the
drawn jitter sample. -/
def exponential_backoff (attempt : ℕ) (u : ℚ) : ℚ :=
  min (2 ^ attempt + u) 30

/-- Loop of `connect_with_retry`, with `left` remaining iterations (so the
current iteration is attempt `attempt` and `left = 1` means
`attempt == self.max_attempts - 1`).  Returns the result, the number of
`connect()` invocations made, and the list of backoff sleeps performed. -/
def connectRetryLoop (ip : String) (connects : ℕ → Bool) (jitter : ℕ → ℚ) :
    ℕ → ℕ → ConnectRetryResult × ℕ × List ℚ
  | 0, _ => (.base_unreachable, 0, [])
  | left + 1, attempt =>
    if connects attempt then (.connected, 1, [])
    else if left = 0 then (.network_error ip, 1, [])
    else
      let r := connectRetryLoop ip connects jitter left (attempt + 1)
      (r.1, r.2.1 + 1, exponential_backoff attempt (jitter attempt) :: r.2.2)

/-- `ConnectionManager.connect_with_retry` (lines 114-142). -/
def connect_with_retry (ip : String) (max_attempts : ℕ) (connects : ℕ → Bool)
    (jitter : ℕ → ℚ) : ConnectRetryResult × ℕ × List ℚ :=
  connectRetryLoop ip connects jitter max_attempts 0

/-! ## `connection_manager.py`: `update_time` and `__validate_time` -/

/-- Errors surfaced by `update_time`: the re-raised `NetworkError` naming the
IP, or `OutdatedTimeError(self.ip)`. -/
inductive UpdateTimeError where
  | network : String → UpdateTimeError
  | outdated_time : String → UpdateTimeError
deriving DecidableEq, Repr

/-- `ConnectionManager.__validate_time` (lines 396-421): fails
(`OutdatedTimeError`) when the hour difference is positive, the minute
difference is at least 5, or the day, month or year differ.  `zktime` is the
value being validated and `newtime` the `datetime.today()` taken inside the
method. -/
def validate_time (zktime newtime : PyDateTime) : Except Unit Unit :=
  if ((zktime.hour : ℤ) - newtime.hour).natAbs > 0 ∨
      ((zktime.minute : ℤ) - newtime.minute).natAbs ≥ 5 ∨
      zktime.day ≠ newtime.day ∨
      zktime.month ≠ newtime.month ∨
      zktime.year ≠ newtime.year
  then .error ()
  else .ok ()

/-- `ConnectionManager.update_time` (lines 367-394) on the success path of the
two wrapped network operations: read the device time (`devTime`), write
`now_write` (the `datetime.today()` taken before `set_time`), then validate
the pre-update reading against `now_validate` (the `datetime.today()` taken
inside `__validate_time`).  When either network operation fails instead, the
method re-raises `NetworkError` naming the IP and the device clock keeps its
previous value.  The second component is the device clock after the call. -/
def update_time (ip : String) (get_ok set_ok : Bool) (devTime now_write now_validate : PyDateTime) :
    Except UpdateTimeError Unit × PyDateTime :=
  if ¬ get_ok then (.error (.network ip), devTime)
  else if ¬ set_ok then (.error (.network ip), devTime)
  else
    match validate_time devTime now_validate with
    | .error () => (.error (.outdated_time ip), now_write)
    | .ok () => (.ok (), now_write)

/-! ## `connection_manager.py`: `get_attendances`

`get_attendances` (lines 423-479) loops up to `max_attempts` times: each
iteration retrieves the punch list through the network wrapper, reads the
device's `records` counter, and raises `AttendanceMismatchError` when the
counter differs from the length of the retrieved list (on the last iteration
the mismatch is re-raised as exhaustion, otherwise the loop backs off and
retries).  A second retrieval comparing the record counts of two consecutive
reads exists in the source only inside a string literal (lines 454-461), so
the executed loop performs exactly one retrieval per iteration.  The outcome
of the `n`-th `get_attendance` wrapper call is `reads n`: `.ok` carries the
punch list and the `records` counter of that read, `.error ()` models the
`NetworkError` the wrapper raises once its own retry budget is exhausted.
Mismatch exhaustion and `NetworkError` are both turned into
`ObtainAttendancesError(self.ip)` by the surrounding handler. -/

/-- Terminal failure of `get_attendances`: `ObtainAttendancesError` naming the
device IP. -/
inductive GetAttendancesError where
  | obtain_attendances : String → GetAttendancesError
deriving DecidableEq, Repr

/-- The failure observed inside the retry loop before the surrounding handler
rewraps it. -/
inductive GetAttendancesInnerError where
  | network
  | mismatch_exhausted
deriving DecidableEq, Repr

/-- A punch re-packed into a `models.attendance.Attendance` object by the
parsing loop of `get_attendances` (lines 469-474). -/
structure ParsedAttendance where
  user_id : ℕ
  timestamp : PyDateTime
  status : ℤ
deriving DecidableEq, Repr

/-- The parsing step `Attendance(user_id=..., timestamp=..., status=...)`. -/
def parseAttendance (a : RawAttendance) : ParsedAttendance :=
  ⟨a.user_id, a.timestamp, a.status⟩

/-- Retry loop of `get_attendances` with `left` remaining iterations
(`left = 1` means `attempt == self.max_attempts - 1`) and `ci` the index of
the next `get_attendance` call.  Returns the loop outcome and the total
number of `get_attendance` calls issued.  Entering with `left = 0` is the
`max_attempts = 0` case, where the Python loop body never runs and the
initial `attendances = []` is returned. -/
def getAttendancesLoop (reads : ℕ → Except Unit (List RawAttendance × ℕ)) :
    ℕ → ℕ → Except GetAttendancesInnerError (List RawAttendance) × ℕ
  | 0, ci => (.ok [], ci)
  | left + 1, ci =>
    match reads ci with
    | .error () => (.error .network, ci + 1)
    | .ok (atts, records) =>
      if records ≠ atts.length then
        if left = 0 then (.error .mismatch_exhausted, ci + 1)
        else getAttendancesLoop reads left (ci + 1)
      else (.ok atts, ci + 1)

/-- `ConnectionManager.get_attendances` (lines 423-479): the retry loop
followed by parsing into `Attendance` objects, with loop failures rewrapped
as `ObtainAttendancesError(self.ip)`.  The second component is the total
number of `get_attendance` calls issued. -/
def get_attendances (ip : String) (max_attempts : ℕ)
    (reads : ℕ → Except Unit (List RawAttendance × ℕ)) :
    Except GetAttendancesError (List ParsedAttendance) × ℕ :=
  match getAttendancesLoop reads max_attempts 0 with
  | (.ok atts, calls) => (.ok (atts.map parseAttendance), calls)
  | (.error _, calls) => (.error (.obtain_attendances ip), calls)

/-- Modelled from the spec: the double-read verification protocol the claim
describes for `get_attendances` — after retrieving the punches and the
device-reported record count, immediately issue a second retrieval and raise
`AttendanceMismatchError` when the first read's length differs from the
device count or the second read's count differs from the first; only on
agreement is the punch list returned, inside the same retry envelope.  (In
the source this second read is present only as the commented-out block at
lines 454-461.) -/
def getAttendancesDoubleLoop (reads : ℕ → Except Unit (List RawAttendance × ℕ)) :
    ℕ → ℕ → Except GetAttendancesInnerError (List RawAttendance) × ℕ
  | 0, ci => (.ok [], ci)
  | left + 1, ci =>
    match reads ci with
    | .error () => (.error .network, ci + 1)
    | .ok (atts, records) =>
      if records ≠ atts.length then
        if left = 0 then (.error .mismatch_exhausted, ci + 1)
        else getAttendancesDoubleLoop reads left (ci + 1)
      else
        match reads (ci + 1) with
        | .error () => (.error .network, ci + 2)
        | .ok (atts2, records2) =>
          if records2 ≠ records then
            if left = 0 then (.error .mismatch_exhausted, ci + 2)
            else getAttendancesDoubleLoop reads left (ci + 2)
          else (.ok atts2, ci + 2)

/-- Modelled from the spec: `get_attendances` as the claim describes it, with
the double-read verification loop in place of the single-read loop. -/
def get_attendances_double (ip : String) (max_attempts : ℕ)
    (reads : ℕ → Except Unit (List RawAttendance × ℕ)) :
    Except GetAttendancesError (List ParsedAttendance) × ℕ :=
  match getAttendancesDoubleLoop reads max_attempts 0 with
  | (.ok atts, calls) => (.ok (atts.map parseAttendance), calls)
  | (.error _, calls) => (.error (.obtain_attendances ip), calls)

/-! ## `attendances_manager.py`: the fleet operation

`manage_device_attendances` (lines 34-93) filters the loaded device records
to those that are active (or all of them when `from_service` is set), spawns
one green thread per selected device, and then, in the same order, waits for
each task: a task that raises is recorded as the error marker string
`'Conexión fallida'`, a task that returns contributes `str(count)`.  Each
device contributes one entry to the `results` dict keyed by its IP.  The
green-thread pool only affects scheduling; the `results` dict is written
sequentially in the join loop, so the embedding passes each task's outcome as
a function of the device. -/

/-- The fields of one loaded device record (a `get_device_info` dict) that
`manage_device_attendances` uses: the registry's string fields plus the
`active` flag, which the source obtains by applying `eval` to the registry's
`"True"`/`"False"` text. -/
structure ActiveDeviceInfo where
  ip : String
  point : String
  district_name : String
  id : String
  active : Bool
deriving DecidableEq, Repr

/-- One value of the `results` dict of `manage_device_attendances`
(lines 81-86). -/
structure AttendanceResultEntry where
  point : String
  district_name : String
  id : String
  attendance_count : String
deriving DecidableEq, Repr

/-- Python dict assignment `results[k] = v` on a dict represented as its
insertion-ordered entry list: overwrite the existing entry for `k` if there
is one, else append. -/
def dictInsert (m : List (String × AttendanceResultEntry)) (k : String)
    (v : AttendanceResultEntry) : List (String × AttendanceResultEntry) :=
  if m.any (fun p => p.1 = k) then m.map (fun p => if p.1 = k then (k, v) else p)
  else m ++ [(k, v)]

/-- The entry recorded for one device: `str(g.wait())` on success, the error
marker `'Conexión fallida'` when the task raised (lines 73-86). -/
def deviceResultEntry (d : ActiveDeviceInfo) (outcome : ActiveDeviceInfo → Except Unit ℕ) :
    AttendanceResultEntry :=
  ⟨d.point, d.district_name, d.id,
    match outcome d with
    | .ok n => Nat.repr n
    | .error () => "Conexión fallida"⟩

/-- `manage_device_attendances` of `attendances_manager.py` (lines 34-93):
filter to the selected devices, then build the `results` dict in join order.
`outcome d` is the result of device `d`'s task (`g.wait()`): a punch count or
a raised exception. -/
def manage_device_attendances (device_info : List ActiveDeviceInfo) (from_service : Bool)
    (outcome : ActiveDeviceInfo → Except Unit ℕ) : List (String × AttendanceResultEntry) :=
  let active_devices := device_info.filter (fun d => d.active || from_service)
  active_devices.foldl (fun results d => dictInsert results d.ip (deviceResultEntry d outcome)) []

/-! ## `hour_manager.py`: time-sync task and battery flag

`update_device_time_single` (lines 94-102) runs the `update_time` network
operation and translates its failures: `ConnectionFailedError` becomes
`NetworkError`, `OutdatedTimeError` becomes `BatteryFailingError` carrying
the device's IP.  The caller in `attendances_manager.py` (lines 111-116)
reacts to `BatteryFailingError e` by calling `update_battery_status(e.ip)`.

`update_battery_status` (lines 117-132) rewrites `info_devices.txt`: each
line is split into its ' - '-separated fields, the record whose field 3 (the
IP) equals the failing device's IP gets field 6 (the battery flag) set to
"False", and the lines are written back.  The embedding works on the
registry as the list of per-line field lists; indexing a record that is too
short raises `IndexError` in Python, modelled as `none`. -/

/-- Failure of the wrapped `update_time` operation as seen by
`update_device_time_single`. -/
inductive TimeOpError where
  | connection_failed
  | outdated_time
deriving DecidableEq, Repr

/-- Failure raised by `update_device_time_single`. -/
inductive TimeTaskError where
  | network
  | battery_failing : String → TimeTaskError
deriving DecidableEq, Repr

/-- `update_device_time_single` of `hour_manager.py` (lines 94-102): the
error translation applied to the outcome of the `update_time` network
operation for the device at `ip`. -/
def update_device_time_single (ip : String) (r : Except TimeOpError Unit) :
    Except TimeTaskError Unit :=
  match r with
  | .ok () => .ok ()
  | .error .connection_failed => .error .network
  | .error .outdated_time => .error (.battery_failing ip)

/-- One line of the `update_battery_status` rewrite loop (lines 122-127):
`parts[3]` is the record's IP; on a match, `parts[6] = "False"`.  `none`
models the `IndexError` of `parts[3]` / `parts[6]` on a record that is too
short. -/
def updateBatteryRecord (p_ip : String) (parts : List String) : Option (List String) :=
  match parts.get? 3 with
  | none => none
  | some ip =>
    if ip = p_ip then
      if 6 < parts.length then some (parts.set 6 "False") else none
    else some parts

/-- `update_battery_status` of `hour_manager.py` (lines 117-132) on the
registry contents (the list of per-line ' - '-separated field lists): the
rewrite loop over `lines`, appending each rewritten record to `new_lines`;
`none` models the `IndexError` that aborts the loop before the file is
written. -/
def update_battery_status (p_ip : String) : List (List String) → Option (List (List String))
  | [] => some []
  | rec0 :: rest =>
    match updateBatteryRecord p_ip rec0 with
    | none => none
    | some rec1 => (update_battery_status p_ip rest).map (fun out => rec1 :: out)

/-! ## `device_manager.py`: parsing the device registry -/

/-- `models.device.Device` after construction: string fields as stored, the
id converted by `int(...)`, and the two flags decoded from their registry
text. -/
structure Device where
  district_name : String
  model_name : String
  point : String
  ip : String
  id : ℤ
  communication : String
  battery_failing : Bool
  active : Bool
deriving DecidableEq, Repr

/-- Digits-to-value helper for `pyInt?`. -/
def parseDigits : List Char → Option ℕ
  | [] => none
  | cs => if cs.all Char.isDigit then some (cs.foldl (fun n c => n * 10 + (c.toNat - '0'.toNat)) 0) else none

/-- Python `int(s)` on a string: surrounding whitespace is ignored, an
optional single sign precedes a non-empty digit run; anything else raises
`ValueError` (`none`).  (Digit-group underscores, accepted by CPython, do not
occur in the registry and are not modelled.) -/
def pyInt? (s : String) : Option ℤ :=
  match pyStrip s.data with
  | '+' :: rest => (parseDigits rest).map (fun n => (n : ℤ))
  | '-' :: rest => (parseDigits rest).map (fun n => -(n : ℤ))
  | cs => (parseDigits cs).map (fun n => (n : ℤ))

/-- The truthiness decoding of `Device.__init__` (lines 52-53):
`value.lower() in ['true', '1', 'yes', 'verdadero', 'si']`. -/
def truthyFlag (s : String) : Bool :=
  pyLower s ∈ ["true", "1", "yes", "verdadero", "si"]

/-- `Device.__init__` of `models/device.py` (lines 18-53) applied to the
eight registry fields: `int(id)` runs first (a non-numeric id raises
`ValueError`), then the communication protocol is validated against
`['TCP', 'UDP', 'RS232', 'RS485']`, and the two flags are decoded. -/
def mkDevice (district model point ip id_s comm battery active : String) :
    Except String Device :=
  match pyInt? id_s with
  | none => .error "invalid literal for int()"
  | some n =>
    if comm ∈ ["TCP", "UDP", "RS232", "RS485"] then
      .ok ⟨district, model, point, ip, n, comm, truthyFlag battery, truthyFlag active⟩
    else .error "Tipo de protocolo de comunicacion no valido"

/-- The number of ' - '-separated fields of a stripped registry line, as
computed at line 38 of `device_manager.py`. -/
def numFields (line : String) : ℕ :=
  (splitDash (pyStrip line.data)).length

/-- `organize_devices_info` of `device_manager.py` (lines 26-50): strip and
split the line; a line without exactly 8 fields yields `None` (`.ok none`),
otherwise the `Device` is constructed (whose validation may raise, aborting
the caller). -/
def organize_devices_info (line : String) : Except String (Option Device) :=
  let parts := splitDash (pyStrip line.data)
  if parts.length ≠ 8 then .ok none
  else (mkDevice (parts.getD 0 "") (parts.getD 1 "") (parts.getD 2 "") (parts.getD 3 "")
    (parts.getD 4 "") (parts.getD 5 "") (parts.getD 6 "") (parts.getD 7 "")).map some

/-- `get_devices_info` of `device_manager.py` (lines 52-74) applied to the
loaded lines of `info_devices.txt`: the comprehension keeps each truthy
`organize_devices_info` result and aborts on the first exception (rewrapped
as `BaseError(3001, ...)`). -/
def get_devices_info : List String → Except String (List Device)
  | [] => .ok []
  | l :: ls =>
    match organize_devices_info l with
    | .error e => .error e
    | .ok none => get_devices_info ls
    | .ok (some d) => (get_devices_info ls).map (fun ds => d :: ds)

/-! ## Concrete data used by witnesses and counterexamples -/

/-- A sample status configuration. -/
def wCfg : AttendanceStatusConfig := ⟨"fingerprint", "face", "card"⟩

/-- A sample retrieval instant. -/
def wNow : PyDateTime := ⟨2025, 6, 15, 12, 0, 0, 0⟩

/-- A timestamp more than three months before `wNow`. -/
def wOld : PyDateTime := ⟨2025, 3, 1, 8, 30, 0, 0⟩

/-- A timestamp strictly after `wNow`. -/
def wFut : PyDateTime := ⟨2025, 6, 15, 12, 0, 1, 0⟩

/-- A punch with the unmapped raw status code 3, timestamped at `wNow`. -/
def wAtt3 : RawAttendance := ⟨7, wNow, 3⟩

/-- A sample punch for the `get_attendances` traces. -/
def wRawA : RawAttendance := ⟨1, wNow, 1⟩

/-- A second sample punch for the `get_attendances` traces. -/
def wRawB : RawAttendance := ⟨2, wNow, 15⟩

/-- A device read trace: the first `get_attendance` call returns one punch
with a matching `records` counter; every later call returns two punches with
`records = 2` (a device whose punch store grows between reads). -/
def wReads : ℕ → Except Unit (List RawAttendance × ℕ) :=
  fun n => if n = 0 then .ok ([wRawA], 1) else .ok ([wRawA, wRawB], 2)

/-- Sample device records for the fleet operation. -/
def wDevA : ActiveDeviceInfo := ⟨"10.0.0.1", "p1", "d1", "1", true⟩

/-- A second sample device record, inactive. -/
def wDevB : ActiveDeviceInfo := ⟨"10.0.0.2", "p2", "d2", "2", false⟩

/-- Sample task outcomes: device `10.0.0.1` returns 5 punches, every other
device's task raises. -/
def wOutcome : ActiveDeviceInfo → Except Unit ℕ :=
  fun d => if d.ip = "10.0.0.1" then .ok 5 else .error ()

/-- A sample well-formed two-record registry (field lists). -/
def wRegistry : List (List String) :=
  [["d1", "m1", "p1", "10.0.0.1", "1", "TCP", "True", "True"],
   ["d2", "m2", "p2", "10.0.0.2", "2", "UDP", "True", "True"]]

/-! # Theorems -/

/-! ## Shared helper lemmas -/

/-- Strict lexicographic `datetime` order implies the non-strict one. -/
lemma dtLt_imp_dtLe {a b : PyDateTime} (h : dtLt a b = true) : dtLe a b = true := by
  simp [dtLe, h]

/-- The strict `datetime` order is irreflexive. -/
lemma dtLt_irrefl (a : PyDateTime) : dtLt a a = false := by
  simp [dtLt]

/-- `format_attendances` keeps every punch: the formatted list has one record
per raw punch. -/
lemma format_attendances_length (cfg : AttendanceStatusConfig) (atts : List RawAttendance)
    (id : String) (now : PyDateTime) :
    (format_attendances cfg atts id now).1.length = atts.length := by
  induction atts with
  | nil => rfl
  | cons a rest ih => simp [format_attendances, ih]

/-- Every record reported anomalous by `format_attendances` is also in the
formatted output. -/
lemma format_attendances_warn_mem (cfg : AttendanceStatusConfig) (atts : List RawAttendance)
    (id : String) (now : PyDateTime) :
    ∀ w ∈ (format_attendances cfg atts id now).2, w ∈ (format_attendances cfg atts id now).1 := by
  induction atts with
  | nil => intro w hw; simp [format_attendances] at hw
  | cons a rest ih =>
    intro w hw
    simp only [format_attendances] at hw ⊢
    by_cases hflag : (is_three_months_old a.timestamp now || is_in_the_future a.timestamp now) = true
    · rw [if_pos hflag] at hw
      rcases List.mem_cons.1 hw with h | h
      · exact List.mem_cons.2 (Or.inl h)
      · exact List.mem_cons.2 (Or.inr (ih w h))
    · rw [if_neg hflag] at hw
      exact List.mem_cons.2 (Or.inr (ih w hw))

/-! ## C4 -/

/-- C4: in `format_attendances`, a punch timestamped strictly earlier than
`now - relativedelta(months=3)` is flagged by `is_three_months_old`, a punch
timestamped strictly after `now` is flagged by `is_in_the_future`, a punch
timestamped exactly at `now` is not flagged as future, and every punch —
flagged or not — is kept in the formatted output (one output record per raw
punch, and every warned record is a member of the output). -/
theorem C4_anomaly_flags (cfg : AttendanceStatusConfig) (id : String)
    (now ts : PyDateTime) (atts : List RawAttendance) :
    (dtLt ts (subThreeMonths now) = true → is_three_months_old ts now = true) ∧
    (dtLt now ts = true → is_in_the_future ts now = true) ∧
    is_in_the_future now now = false ∧
    (format_attendances cfg atts id now).1.length = atts.length ∧
    (∀ w ∈ (format_attendances cfg atts id now).2, w ∈ (format_attendances cfg atts id now).1) := by
  refine ⟨fun h => dtLt_imp_dtLe h, fun h => h, ?_, format_attendances_length cfg atts id now,
    format_attendances_warn_mem cfg atts id now⟩
  exact dtLt_irrefl now

/-- Witness for C4 at concrete data: the hypotheses of the two implications
hold at `wOld` (resp. `wFut`) and `wNow`, and the flags come out as the claim
says. -/
theorem C4_anomaly_flags_witness :
    dtLt wOld (subThreeMonths wNow) = true ∧ is_three_months_old wOld wNow = true ∧
    dtLt wNow wFut = true ∧ is_in_the_future wFut wNow = true ∧
    is_in_the_future wNow wNow = false ∧
    (format_attendances wCfg [⟨3, wOld, 1⟩] "4" wNow).1.length = 1 :=
  ⟨by decide, (C4_anomaly_flags wCfg "4" wNow wOld [⟨3, wOld, 1⟩]).1 (by decide),
   by decide, (C4_anomaly_flags wCfg "4" wNow wFut [⟨3, wOld, 1⟩]).2.1 (by decide),
   (C4_anomaly_flags wCfg "4" wNow wFut [⟨3, wOld, 1⟩]).2.2.1,
   (C4_anomaly_flags wCfg "4" wNow wOld [⟨3, wOld, 1⟩]).2.2.2.1⟩

/-! ## C3 -/

/-- C3 counterexample: the raw status code 3 is outside the mapping, yet
`maping_dictionary` silently substitutes the default `0` and
`format_attendances` formats the punch without any validation failure,
keeping the record (with status `0`) in its output. -/
theorem C3_counterexample :
    maping_dictionary wCfg 3 = .num 0 ∧
    format_attendances wCfg [wAtt3] "1" wNow =
      ([⟨"000000007", "15/06/2025 12:00", "1", .num 0⟩], []) := by
  constructor
  · rfl
  · decide

/-- C3 (amended): the status mapping sends 1 to the fingerprint label, 15 to
the face label, and 0, 2, 4 to the card label; every other code is silently
mapped to the default value `0` — no validation failure occurs, and the
formatter keeps one output record per punch whatever the codes are. -/
theorem C3_status_mapping (cfg : AttendanceStatusConfig) (n : ℤ) :
    maping_dictionary cfg 1 = .label cfg.status_fingerprint ∧
    maping_dictionary cfg 15 = .label cfg.status_face ∧
    maping_dictionary cfg 0 = .label cfg.status_card ∧
    maping_dictionary cfg 2 = .label cfg.status_card ∧
    maping_dictionary cfg 4 = .label cfg.status_card ∧
    (n ≠ 1 → n ≠ 15 → n ≠ 0 → n ≠ 2 → n ≠ 4 → maping_dictionary cfg n = .num 0) ∧
    (∀ atts id now, (format_attendances cfg atts id now).1.length = atts.length) := by
  refine ⟨rfl, rfl, rfl, rfl, rfl, ?_, fun atts id now => format_attendances_length cfg atts id now⟩
  intro h1 h15 h0 h2 h4
  have e1 : (n == 1) = false := beq_eq_false_iff_ne.2 h1
  have e15 : (n == 15) = false := beq_eq_false_iff_ne.2 h15
  have e0 : (n == 0) = false := beq_eq_false_iff_ne.2 h0
  have e2 : (n == 2) = false := beq_eq_false_iff_ne.2 h2
  have e4 : (n == 4) = false := beq_eq_false_iff_ne.2 h4
  simp [maping_dictionary, attendance_status_dictionary, List.lookup, e1, e15, e0, e2, e4]

/-- Witness for C3 (amended) at the concrete code 3. -/
theorem C3_status_mapping_witness :
    (3 : ℤ) ≠ 1 ∧ maping_dictionary wCfg 3 = .num 0 :=
  ⟨by decide,
    (C3_status_mapping wCfg 3).2.2.2.2.2.1 (by decide) (by decide) (by decide) (by decide) (by decide)⟩

/-! ## C7 -/

/-- The failure condition of `__validate_time`, stated with the claim's
vocabulary on the hour field. -/
lemma validate_time_error_iff (zk nt : PyDateTime) :
    validate_time zk nt = .error () ↔
      (zk.hour ≠ nt.hour ∨ 5 ≤ ((zk.minute : ℤ) - nt.minute).natAbs ∨
        zk.day ≠ nt.day ∨ zk.month ≠ nt.month ∨ zk.year ≠ nt.year) := by
  unfold validate_time
  split
  · rename_i h
    simp only [true_iff]
    rcases h with h | h
    · exact Or.inl (by omega)
    · exact Or.inr h
  · rename_i h
    push_neg at h
    simp only [reduceCtorEq, false_iff]
    push_neg
    exact ⟨by omega, by omega, h.2.2.1, h.2.2.2.1, h.2.2.2.2⟩

/-- C7: on the success path of its two network operations, `update_time`
reads the device time, writes the local time `now_write` to the device, and
validates the pre-update device reading against the local time taken at
validation: it raises `OutdatedTimeError` exactly when the hour differs by
any amount, or the minute differs by 5 or more, or the day, month or year
differ; in every case the device clock ends up holding the written local
time. -/
theorem C7_update_time (ip : String) (devTime now_write now_validate : PyDateTime) :
    ((update_time ip true true devTime now_write now_validate).1 =
        .error (.outdated_time ip) ↔
      (devTime.hour ≠ now_validate.hour ∨
        5 ≤ ((devTime.minute : ℤ) - now_validate.minute).natAbs ∨
        devTime.day ≠ now_validate.day ∨
        devTime.month ≠ now_validate.month ∨
        devTime.year ≠ now_validate.year)) ∧
    (update_time ip true true devTime now_write now_validate).2 = now_write := by
  have hv := validate_time_error_iff devTime now_validate
  unfold update_time
  simp only [Bool.not_true, if_false]
  constructor
  · cases hval : validate_time devTime now_validate with
    | error u =>
      cases u
      rw [hval] at hv
      simpa using hv
    | ok u =>
      cases u
      rw [hval] at hv
      simp only [reduceCtorEq, false_iff] at hv ⊢
      simpa using hv
  · cases hval : validate_time devTime now_validate with
    | error u => cases u; rfl
    | ok u => cases u; rfl

/-- Witness for C7: a device reading one hour behind the validation-time
local clock is flagged outdated, and the device is left holding the written
time. -/
theorem C7_update_time_witness :
    (update_time "10.0.0.1" true true ⟨2025, 6, 15, 11, 0, 0, 0⟩ wNow wNow).1 =
      .error (.outdated_time "10.0.0.1") ∧
    (update_time "10.0.0.1" true true ⟨2025, 6, 15, 11, 0, 0, 0⟩ wNow wNow).2 = wNow :=
  ⟨(C7_update_time "10.0.0.1" ⟨2025, 6, 15, 11, 0, 0, 0⟩ wNow wNow).1.2 (by decide),
   (C7_update_time "10.0.0.1" ⟨2025, 6, 15, 11, 0, 0, 0⟩ wNow wNow).2⟩

/-! ## C10 -/

/-- A line that does not split into exactly 8 fields parses to `None`. -/
lemma organize_devices_info_bad_fields {line : String} (h : numFields line ≠ 8) :
    organize_devices_info line = .ok none := by
  unfold numFields at h
  simp only [organize_devices_info]
  rw [if_pos h]

/-- A stripped line with exactly 8 fields never parses to `None`: the
`Device` constructor either succeeds or raises. -/
lemma organize_devices_info_ne_ok_none {line : String} (h8 : numFields line = 8) :
    organize_devices_info line ≠ .ok none := by
  unfold numFields at h8
  simp only [organize_devices_info]
  rw [if_neg (by omega)]
  cases mkDevice ((splitDash (pyStrip line.data)).getD 0 "")
      ((splitDash (pyStrip line.data)).getD 1 "") ((splitDash (pyStrip line.data)).getD 2 "")
      ((splitDash (pyStrip line.data)).getD 3 "") ((splitDash (pyStrip line.data)).getD 4 "")
      ((splitDash (pyStrip line.data)).getD 5 "") ((splitDash (pyStrip line.data)).getD 6 "")
      ((splitDash (pyStrip line.data)).getD 7 "") <;> simp [Except.map]

/-- C10: a registry line that does not split into exactly 8 ' - '-separated
fields parses to `None` and is silently omitted by the loader: whenever
`get_devices_info` returns a list at all, that list has exactly one `Device`
per 8-field line. -/
theorem C10_registry_line_parsing :
    (∀ line : String, numFields line ≠ 8 → organize_devices_info line = .ok none) ∧
    (∀ (lines : List String) (ds : List Device), get_devices_info lines = .ok ds →
      ds.length = lines.countP (fun l => numFields l = 8)) := by
  constructor
  · intro line h
    exact organize_devices_info_bad_fields h
  · intro lines
    induction lines with
    | nil =>
      intro ds h
      simp only [get_devices_info] at h
      cases h
      rfl
    | cons l ls ih =>
      intro ds h
      simp only [get_devices_info] at h
      rw [List.countP_cons]
      cases horg : organize_devices_info l with
      | error e => rw [horg] at h; cases h
      | ok od =>
        cases od with
        | none =>
          rw [horg] at h
          have h8 : numFields l ≠ 8 := by
            intro hc
            exact organize_devices_info_ne_ok_none hc horg
          rw [ih ds h]
          simp [h8]
        | some d =>
          rw [horg] at h
          cases hrest : get_devices_info ls with
          | error e => rw [hrest] at h; cases h
          | ok ds2 =>
            rw [hrest] at h
            simp only [Except.map] at h
            cases h
            have h8 : numFields l = 8 := by
              by_contra hc
              rw [organize_devices_info_bad_fields hc] at horg
              cases horg
            rw [List.length_cons, ih ds2 hrest]
            simp [h8]

/-- Witness for C10: a malformed line (7 fields) is dropped, a well-formed
line produces its `Device`, and the loader returns exactly one device for the
two lines. -/
theorem C10_registry_line_parsing_witness :
    numFields "bad - line - with - seven - fields - only - here" ≠ 8 ∧
    organize_devices_info "bad - line - with - seven - fields - only - here" = .ok none ∧
    (1 : ℕ) = List.countP (fun l => numFields l = 8)
      ["bad - line - with - seven - fields - only - here",
       "d1 - m1 - p1 - 10.0.0.1 - 1 - TCP - False - True"] :=
  ⟨by decide,
    (C10_registry_line_parsing).1 "bad - line - with - seven - fields - only - here" (by decide),
    (C10_registry_line_parsing).2
      ["bad - line - with - seven - fields - only - here",
       "d1 - m1 - p1 - 10.0.0.1 - 1 - TCP - False - True"]
      [⟨"d1", "m1", "p1", "10.0.0.1", 1, "TCP", false, true⟩] (by rfl)⟩

/-! ## C8 -/

/-- Per-record effect of the battery rewrite on a well-formed (8-field)
record: the rewrite never raises, a record with a different IP is returned
unchanged, and the matching record gets field 6 set to "False" with every
other field untouched. -/
lemma updateBatteryRecord_frame (p_ip : String) (rec0 : List String) (h8 : rec0.length = 8) :
    ∃ out, updateBatteryRecord p_ip rec0 = some out ∧
      (rec0.getD 3 "" ≠ p_ip → out = rec0) ∧
      (rec0.getD 3 "" = p_ip → (out.getD 6 "" = "False" ∧ out.length = 8 ∧
        ∀ j, j < 8 → j ≠ 6 → out.getD j "" = rec0.getD j "")) := by
  obtain ⟨a, b, c, d, e, f, g, h, rfl⟩ :
      ∃ a b c d e f g h, rec0 = [a, b, c, d, e, f, g, h] := by
    rcases rec0 with _ | ⟨a, _ | ⟨b, _ | ⟨c, _ | ⟨d, _ | ⟨e, _ | ⟨f, _ | ⟨g, _ | ⟨h, _ | ⟨i, t⟩⟩⟩⟩⟩⟩⟩⟩⟩ <;>
      simp at h8
    exact ⟨a, b, c, d, e, f, g, h, rfl⟩
  by_cases hip : d = p_ip
  · refine ⟨[a, b, c, d, e, f, "False", h], ?_, ?_, ?_⟩
    · simp [updateBatteryRecord, hip]
    · intro hne; exact absurd hip hne
    · intro _
      refine ⟨rfl, rfl, ?_⟩
      intro j hj hj6
      interval_cases j <;> simp_all
  · refine ⟨[a, b, c, d, e, f, g, h], ?_, fun _ => rfl, ?_⟩
    · simp [updateBatteryRecord, hip]
    · intro hc; exact absurd hc hip

/-- List-level frame property of `update_battery_status` on a well-formed
registry. -/
lemma update_battery_status_frame (p_ip : String) :
    ∀ registry : List (List String), (∀ rec0 ∈ registry, rec0.length = 8) →
    ∃ out, update_battery_status p_ip registry = some out ∧
      out.length = registry.length ∧
      ∀ i, i < registry.length →
        ((registry.getD i []).getD 3 "" ≠ p_ip → out.getD i [] = registry.getD i []) ∧
        ((registry.getD i []).getD 3 "" = p_ip → ((out.getD i []).getD 6 "" = "False" ∧
          ∀ j, j < 8 → j ≠ 6 → (out.getD i []).getD j "" = (registry.getD i []).getD j "")) := by
  intro registry hwf
  induction registry with
  | nil => exact ⟨[], rfl, rfl, fun i hi => by simp at hi⟩
  | cons rec0 rest ih =>
    obtain ⟨out0, hout0, hne0, heq0⟩ :=
      updateBatteryRecord_frame p_ip rec0 (hwf rec0 (List.mem_cons_self rec0 rest))
    obtain ⟨outR, houtR, hlenR, hframeR⟩ := ih (fun r hr => hwf r (List.mem_cons_of_mem rec0 hr))
    refine ⟨out0 :: outR, ?_, by simp [hlenR], ?_⟩
    · simp only [update_battery_status, hout0, houtR, Option.map]
    · intro i hi
      cases i with
      | zero =>
        refine ⟨fun hne => ?_, fun hip => ?_⟩
        · simpa using hne0 (by simpa using hne)
        · obtain ⟨h1, _, h3⟩ := heq0 (by simpa using hip)
          exact ⟨by simpa using h1, by simpa using h3⟩
      | succ i =>
        have hi' : i < rest.length := by simpa using hi
        have := hframeR i hi'
        simpa using this

/-- C8: when a device's time-sync fails with the outdated-time condition,
`update_device_time_single` raises `BatteryFailingError` carrying exactly
that device's IP (and only the outdated-time condition produces it), and the
battery side effect `update_battery_status` then rewrites the registry so
that only field 6 (the battery flag) of the records whose IP field matches
the failing device is changed — to the written flag value "False" — while
every other field of those records and every other record are unchanged. -/
theorem C8_battery_flag_side_effect (dev_ip fail_ip : String) (r : Except TimeOpError Unit)
    (registry : List (List String))
    (htrig : update_device_time_single dev_ip r = .error (.battery_failing fail_ip))
    (hwf : ∀ rec0 ∈ registry, rec0.length = 8) :
    fail_ip = dev_ip ∧ r = .error .outdated_time ∧
    ∃ out, update_battery_status fail_ip registry = some out ∧
      out.length = registry.length ∧
      ∀ i, i < registry.length →
        ((registry.getD i []).getD 3 "" ≠ fail_ip → out.getD i [] = registry.getD i []) ∧
        ((registry.getD i []).getD 3 "" = fail_ip → ((out.getD i []).getD 6 "" = "False" ∧
          ∀ j, j < 8 → j ≠ 6 → (out.getD i []).getD j "" = (registry.getD i []).getD j "")) := by
  have htr : fail_ip = dev_ip ∧ r = .error .outdated_time := by
    cases r with
    | ok u => cases u; simp [update_device_time_single] at htrig
    | error te =>
      cases te with
      | connection_failed => simp [update_device_time_single] at htrig
      | outdated_time =>
        simp only [update_device_time_single, Except.error.injEq,
          TimeTaskError.battery_failing.injEq] at htrig
        exact ⟨htrig.symm, rfl⟩
  exact ⟨htr.1, htr.2, update_battery_status_frame fail_ip registry hwf⟩

/-- Witness for C8 at the concrete two-record registry `wRegistry`: the
outdated-time failure of device 10.0.0.2 flips exactly that record's battery
field. -/
theorem C8_battery_flag_side_effect_witness :
    update_device_time_single "10.0.0.2" (.error .outdated_time) =
      .error (.battery_failing "10.0.0.2") ∧
    (∀ rec0 ∈ wRegistry, rec0.length = 8) ∧
    ("10.0.0.2" = "10.0.0.2" ∧ (Except.error .outdated_time : Except TimeOpError Unit) = .error .outdated_time ∧
      ∃ out, update_battery_status "10.0.0.2" wRegistry = some out ∧
        out.length = wRegistry.length ∧
        ∀ i, i < wRegistry.length →
          ((wRegistry.getD i []).getD 3 "" ≠ "10.0.0.2" → out.getD i [] = wRegistry.getD i []) ∧
          ((wRegistry.getD i []).getD 3 "" = "10.0.0.2" → ((out.getD i []).getD 6 "" = "False" ∧
            ∀ j, j < 8 → j ≠ 6 → (out.getD i []).getD j "" = (wRegistry.getD i []).getD j ""))) :=
  ⟨by rfl, by decide,
    C8_battery_flag_side_effect "10.0.0.2" "10.0.0.2" (.error .outdated_time) wRegistry
      (by rfl) (by decide)⟩

/-! ## C5 -/

/-- Behaviour of the `connect_with_retry` loop when every connect attempt in
its window fails: the terminal `NetworkError` naming the IP after exactly
`left` connect calls, with one capped exponential backoff between consecutive
attempts. -/
lemma connectRetryLoop_all_fail (ip : String) (connects : ℕ → Bool) (jitter : ℕ → ℚ) :
    ∀ left att, 1 ≤ left → (∀ k, k < left → connects (att + k) = false) →
    connectRetryLoop ip connects jitter left att =
      (.network_error ip, left, (List.range (left - 1)).map
        (fun i => exponential_backoff (att + i) (jitter (att + i)))) := by
  intro left
  induction left with
  | zero => intro att h; omega
  | succ l ihl =>
    intro att _ hfail
    have hc : connects att = false := by simpa using hfail 0 (by omega)
    cases l with
    | zero => simp [connectRetryLoop, hc]
    | succ l2 =>
      have ih := ihl (att + 1) (by omega) (fun k hk => by
        have h := hfail (k + 1) (by omega)
        have e : att + 1 + k = att + (k + 1) := by omega
        rw [e]; exact h)
      have hstep : connectRetryLoop ip connects jitter (l2 + 1 + 1) att =
          (if connects att then (.connected, 1, []) else
            if l2 + 1 = 0 then (.network_error ip, 1, []) else
            ((connectRetryLoop ip connects jitter (l2 + 1) (att + 1)).1,
              (connectRetryLoop ip connects jitter (l2 + 1) (att + 1)).2.1 + 1,
              exponential_backoff att (jitter att) ::
                (connectRetryLoop ip connects jitter (l2 + 1) (att + 1)).2.2)) := rfl
      rw [hstep, if_neg (by simp [hc]), if_neg (by omega), ih]
      refine congrArg (fun w => (ConnectRetryResult.network_error ip, l2 + 2, w)) ?_
      rw [show l2 + 1 + 1 - 1 = l2 + 1 by omega, show l2 + 1 - 1 = l2 by omega,
        List.range_succ_eq_map, List.map_cons, List.map_map]
      refine congrArg₂ _ (by rw [Nat.add_zero]) ?_
      refine List.map_congr_left (fun i _ => ?_)
      simp only [Function.comp]
      rw [show att + 1 + i = att + (i + 1) by omega]

/-- C5: when the first `max_attempts` connect outcomes are all failures,
`connect_with_retry` invokes `connect()` exactly `max_attempts` times,
sleeps `min(2 ^ attempt + jitter, 30)` seconds between consecutive attempts
(`jitter k` is the `random.uniform(0, 3)` sample of attempt `k`), and then
raises the terminal network error naming the device IP exactly once — no
further connect calls follow the last failure. -/
theorem C5_connect_retry_exhaustion (ip : String) (m : ℕ) (connects : ℕ → Bool)
    (jitter : ℕ → ℚ) (hm : 1 ≤ m) (hfail : ∀ k, k < m → connects k = false) :
    connect_with_retry ip m connects jitter =
      (.network_error ip, m,
        (List.range (m - 1)).map (fun k => min (2 ^ k + jitter k) 30)) := by
  have h := connectRetryLoop_all_fail ip connects jitter m 0 hm
    (fun k hk => by simpa using hfail k hk)
  unfold connect_with_retry
  rw [h]
  refine congrArg (fun w => (ConnectRetryResult.network_error ip, m, w)) ?_
  refine List.map_congr_left (fun i _ => ?_)
  simp [exponential_backoff]

/-- Witness for C5: two failing attempts yield the network error naming the
IP after exactly 2 connect calls and a single backoff sleep of
`min(2^0 + 1, 30) = 2` seconds. -/
theorem C5_connect_retry_exhaustion_witness :
    (1 : ℕ) ≤ 2 ∧ connect_with_retry "10.0.0.1" 2 (fun _ => false) (fun _ => 1) =
      (.network_error "10.0.0.1", 2, [2]) := by
  refine ⟨by norm_num, ?_⟩
  rw [C5_connect_retry_exhaustion "10.0.0.1" 2 (fun _ => false) (fun _ => 1) (by norm_num)
    (fun k _ => rfl)]
  simp only [List.range_succ, List.range_zero, List.nil_append, List.map_cons, List.map_nil,
    pow_zero]
  rw [show min ((1:ℚ) + 1) 30 = 2 from by rw [min_eq_left (by norm_num)]; norm_num]

/-! ## C2 -/

/-- `results[k] = v` on a dict that does not yet hold key `k` appends the
entry. -/
lemma dictInsert_fresh (m : List (String × AttendanceResultEntry)) (k : String)
    (v : AttendanceResultEntry) (h : m.any (fun p => p.1 = k) = false) :
    dictInsert m k v = m ++ [(k, v)] := by
  simp [dictInsert, h]

/-- The join loop of `manage_device_attendances` over devices with pairwise
distinct IPs, none already present in the accumulated dict, appends one entry
per device in order. -/
lemma manage_fold_append (outcome : ActiveDeviceInfo → Except Unit ℕ) :
    ∀ (ds : List ActiveDeviceInfo) (acc : List (String × AttendanceResultEntry)),
    (∀ d ∈ ds, acc.any (fun p => p.1 = d.ip) = false) →
    (ds.map ActiveDeviceInfo.ip).Nodup →
    ds.foldl (fun results d => dictInsert results d.ip (deviceResultEntry d outcome)) acc =
      acc ++ ds.map (fun d => (d.ip, deviceResultEntry d outcome)) := by
  intro ds
  induction ds with
  | nil => intro acc _ _; simp
  | cons d rest ih =>
    intro acc hfresh hnodup
    simp only [List.foldl_cons]
    rw [dictInsert_fresh acc d.ip (deviceResultEntry d outcome)
      (hfresh d (List.mem_cons_self d rest))]
    have hnd : (∀ x ∈ rest, ¬ x.ip = d.ip) ∧ (rest.map ActiveDeviceInfo.ip).Nodup := by
      simpa using hnodup
    rw [ih (acc ++ [(d.ip, deviceResultEntry d outcome)]) ?_ hnd.2]
    · simp
    · intro d' hd'
      have h1 : acc.any (fun p => p.1 = d'.ip) = false :=
        hfresh d' (List.mem_cons_of_mem d hd')
      have h2 : d.ip ≠ d'.ip := fun he => hnd.1 d' hd' he.symm
      simp [List.any_append, h1, h2]

/-- Looking up a device's IP in the entry list built from devices with
pairwise distinct IPs finds that device's entry. -/
lemma lookup_entry_list (f : ActiveDeviceInfo → AttendanceResultEntry) :
    ∀ ds : List ActiveDeviceInfo, (ds.map ActiveDeviceInfo.ip).Nodup →
    ∀ d ∈ ds, (ds.map (fun d' => (d'.ip, f d'))).lookup d.ip = some (f d) := by
  intro ds
  induction ds with
  | nil => intro _ d hd; cases hd
  | cons a rest ih =>
    intro hnodup d hd
    have hnd : (∀ x ∈ rest, ¬ x.ip = a.ip) ∧ (rest.map ActiveDeviceInfo.ip).Nodup := by
      simpa using hnodup
    simp only [List.map_cons, List.lookup]
    rcases List.mem_cons.1 hd with rfl | hmem
    · simp
    · have hne : (d.ip == a.ip) = false :=
        beq_eq_false_iff_ne.2 (fun he => hnd.1 d hmem he)
      rw [hne]
      exact ih hnd.2 d hmem

/-- C2: for any device list, service flag and per-device task outcomes, as
long as the selected devices carry pairwise distinct IPs, the fleet operation
returns one result entry per selected device — keyed by its IP, in join
order — regardless of per-device success or failure; a failed device's entry
carries the error marker string `'Conexión fallida'` in place of its punch
count, and no outcome (in particular no failure) removes or prevents any
other device's entry. -/
theorem C2_fleet_result_completeness (device_info : List ActiveDeviceInfo)
    (from_service : Bool) (outcome : ActiveDeviceInfo → Except Unit ℕ)
    (hnodup : ((device_info.filter (fun d => d.active || from_service)).map
      ActiveDeviceInfo.ip).Nodup) :
    (manage_device_attendances device_info from_service outcome).map Prod.fst =
      (device_info.filter (fun d => d.active || from_service)).map ActiveDeviceInfo.ip ∧
    ∀ d ∈ device_info.filter (fun d => d.active || from_service),
      (manage_device_attendances device_info from_service outcome).lookup d.ip =
        some ⟨d.point, d.district_name, d.id,
          match outcome d with
          | .ok n => Nat.repr n
          | .error () => "Conexión fallida"⟩ := by
  unfold manage_device_attendances
  rw [manage_fold_append outcome (device_info.filter (fun d => d.active || from_service)) []
    (fun d _ => rfl) hnodup]
  simp only [List.nil_append]
  constructor
  · rw [List.map_map]
    rfl
  · intro d hd
    have h := lookup_entry_list (fun d' => deviceResultEntry d' outcome)
      (device_info.filter (fun d' => d'.active || from_service)) hnodup d hd
    rw [h]
    rfl

/-- Witness for C2 at two concrete devices (one task succeeds with 5 punches,
the other raises): the result map has exactly the two IPs as keys and the
failed device's entry carries the error marker. -/
theorem C2_fleet_result_completeness_witness :
    (([wDevA, wDevB].filter (fun d => d.active || true)).map ActiveDeviceInfo.ip).Nodup ∧
    (manage_device_attendances [wDevA, wDevB] true wOutcome).map Prod.fst =
      ["10.0.0.1", "10.0.0.2"] ∧
    (manage_device_attendances [wDevA, wDevB] true wOutcome).lookup "10.0.0.2" =
      some ⟨"p2", "d2", "2", "Conexión fallida"⟩ :=
  ⟨by decide,
    (C2_fleet_result_completeness [wDevA, wDevB] true wOutcome (by decide)).1,
    (C2_fleet_result_completeness [wDevA, wDevB] true wOutcome (by decide)).2 wDevB (by decide)⟩

/-! ## C1 -/

/-- One-step equation of the `get_attendances` retry loop. -/
lemma getAttendancesLoop_succ (reads : ℕ → Except Unit (List RawAttendance × ℕ))
    (left ci : ℕ) :
    getAttendancesLoop reads (left + 1) ci =
      (match reads ci with
      | .error () => (.error .network, ci + 1)
      | .ok (atts, records) =>
        if records ≠ atts.length then
          if left = 0 then (.error .mismatch_exhausted, ci + 1)
          else getAttendancesLoop reads left (ci + 1)
        else (.ok atts, ci + 1)) := rfl

/-- Success characterization of the `get_attendances` retry loop: a punch
list is returned only after some attempt `k` whose single read agreed with
the device-reported record count, every earlier attempt's single read having
disagreed — one `get_attendance` call per attempt, `k + 1` calls in total. -/
lemma getAttendancesLoop_ok (reads : ℕ → Except Unit (List RawAttendance × ℕ)) :
    ∀ left ci atts calls, getAttendancesLoop reads left ci = (.ok atts, calls) →
      (left = 0 ∧ atts = [] ∧ calls = ci) ∨
      (∃ k, k < left ∧ calls = ci + k + 1 ∧ reads (ci + k) = .ok (atts, atts.length) ∧
        ∀ j, j < k → ∃ a n, reads (ci + j) = .ok (a, n) ∧ n ≠ a.length) := by
  intro left
  induction left with
  | zero =>
    intro ci atts calls h
    simp only [getAttendancesLoop, Prod.mk.injEq, Except.ok.injEq] at h
    exact Or.inl ⟨rfl, h.1.symm, h.2.symm⟩
  | succ l ih =>
    intro ci atts calls h
    rw [getAttendancesLoop_succ] at h
    cases hr : reads ci with
    | error u =>
      cases u
      rw [hr] at h
      cases h
    | ok p =>
      obtain ⟨a, n⟩ := p
      rw [hr] at h
      dsimp only at h
      by_cases hm : n ≠ a.length
      · rw [if_pos hm] at h
        by_cases hl : l = 0
        · rw [if_pos hl] at h
          cases h
        · rw [if_neg hl] at h
          rcases ih (ci + 1) atts calls h with ⟨h0, _⟩ | ⟨k, hk, hcalls, hread, hrest⟩
          · exact absurd h0 hl
          · refine Or.inr ⟨k + 1, by omega, by omega, ?_, ?_⟩
            · rw [show ci + (k + 1) = ci + 1 + k by omega]
              exact hread
            · intro j hj
              cases j with
              | zero => exact ⟨a, n, by simpa using hr, hm⟩
              | succ j' =>
                obtain ⟨a', n', h1, h2⟩ := hrest j' (by omega)
                exact ⟨a', n', by rw [show ci + (j' + 1) = ci + 1 + j' by omega]; exact h1, h2⟩
      · rw [if_neg hm] at h
        push_neg at hm
        simp only [Prod.mk.injEq, Except.ok.injEq] at h
        obtain ⟨rfl, rfl⟩ := h
        refine Or.inr ⟨0, by omega, by omega, ?_, fun j hj => absurd hj (by omega)⟩
        rw [Nat.add_zero, hr, hm]

/-- Exhaustion of the `get_attendances` retry loop: when every read in the
window disagrees with the device-reported count, the loop raises the
exhausted mismatch after exactly `left` reads. -/
lemma getAttendancesLoop_exhaust (reads : ℕ → Except Unit (List RawAttendance × ℕ)) :
    ∀ left ci, 1 ≤ left →
    (∀ j, j < left → ∃ a n, reads (ci + j) = .ok (a, n) ∧ n ≠ a.length) →
    getAttendancesLoop reads left ci = (.error .mismatch_exhausted, ci + left) := by
  intro left
  induction left with
  | zero => intro ci h; omega
  | succ l ih =>
    intro ci _ hall
    have h0 := hall 0 (by omega)
    rw [Nat.add_zero] at h0
    obtain ⟨a, n, hr, hm⟩ := h0
    rw [getAttendancesLoop_succ, hr]
    dsimp only
    rw [if_pos hm]
    by_cases hl : l = 0
    · rw [if_pos hl]
      subst hl
      rfl
    · rw [if_neg hl]
      have hrec := ih (ci + 1) (by omega) (fun j hj => by
        have h := hall (j + 1) (by omega)
        rw [show ci + (j + 1) = ci + 1 + j by omega] at h
        exact h)
      rw [hrec, show ci + 1 + l = ci + (l + 1) by omega]

/-- C1 counterexample: on the concrete device trace `wReads` (first read: one
punch with a matching counter; any further read: two punches, counter 2) and
`max_attempts = 2`, the source's `get_attendances` returns the first read's
punch list after exactly one `get_attendance` call — it never issues the
second retrieval — whereas the double-read verification protocol described by
the claim (`get_attendances_double`) would issue further reads and return a
different punch list after four calls.  The two protocols are therefore
observably different at this input, refuting the claim that `get_attendances`
performs the double-read comparison. -/
theorem C1_counterexample :
    get_attendances "192.168.0.9" 2 wReads = (.ok [parseAttendance wRawA], 1) ∧
    get_attendances_double "192.168.0.9" 2 wReads =
      (.ok [parseAttendance wRawA, parseAttendance wRawB], 4) ∧
    (1 : ℕ) ≠ 4 := by
  refine ⟨rfl, rfl, by omega⟩

/-- C1 (amended): `get_attendances` performs single-read verification: each
attempt issues exactly one retrieval and compares the device-reported record
count with the retrieved punch count.  A returned punch list comes from an
attempt whose single read agreed (`records = len(attendances)`), after one
call per earlier (disagreeing) attempt; when every read of the window
disagrees, the retry envelope is exhausted after exactly `max_attempts`
reads and the attendance-mismatch is surfaced as an obtain-attendances error
naming the device IP.  (The second retrieval described by the spec is
commented out in the source.) -/
theorem C1_single_read_verification (ip : String) (m : ℕ)
    (reads : ℕ → Except Unit (List RawAttendance × ℕ)) :
    (∀ l calls, get_attendances ip m reads = (.ok l, calls) →
      (m = 0 ∧ l = [] ∧ calls = 0) ∨
      (∃ k atts, k < m ∧ calls = k + 1 ∧ reads k = .ok (atts, atts.length) ∧
        l = atts.map parseAttendance ∧
        ∀ j, j < k → ∃ a n, reads j = .ok (a, n) ∧ n ≠ a.length)) ∧
    ((1 ≤ m ∧ ∀ j, j < m → ∃ a n, reads j = .ok (a, n) ∧ n ≠ a.length) →
      get_attendances ip m reads = (.error (.obtain_attendances ip), m)) := by
  constructor
  · intro l calls h
    unfold get_attendances at h
    cases hloop : getAttendancesLoop reads m 0 with
    | mk res calls2 =>
      rw [hloop] at h
      cases res with
      | error e => cases h
      | ok atts =>
        dsimp only at h
        simp only [Prod.mk.injEq, Except.ok.injEq] at h
        obtain ⟨hmap, rfl⟩ := h
        rcases getAttendancesLoop_ok reads m 0 atts calls2 hloop with
          ⟨h0, ha, hc⟩ | ⟨k, hkm, hcalls, hread, hhist⟩
        · left
          subst ha
          exact ⟨h0, by simpa using hmap.symm, hc⟩
        · right
          refine ⟨k, atts, hkm, by omega, by simpa using hread, hmap.symm, ?_⟩
          intro j hj
          have := hhist j hj
          simpa using this
  · intro ⟨hm, hall⟩
    have hexh := getAttendancesLoop_exhaust reads m 0 hm (fun j hj => by
      rw [Nat.zero_add]
      exact hall j hj)
    unfold get_attendances
    rw [hexh]
    dsimp only
    rw [Nat.zero_add]

/-- Witness for C1 (amended): applying the characterization at the concrete
trace `wReads` with `max_attempts = 2` recovers the agreeing first read. -/
theorem C1_single_read_verification_witness :
    get_attendances "192.168.0.9" 2 wReads = (.ok [parseAttendance wRawA], 1) ∧
    (∃ k atts, k < 2 ∧ (1 : ℕ) = k + 1 ∧ wReads k = .ok (atts, atts.length) ∧
      [parseAttendance wRawA] = atts.map parseAttendance ∧
      ∀ j, j < k → ∃ a n, wReads j = .ok (a, n) ∧ n ≠ a.length) := by
  refine ⟨rfl, ?_⟩
  rcases (C1_single_read_verification "192.168.0.9" 2 wReads).1 [parseAttendance wRawA] 1 rfl with
    ⟨h0, _, _⟩ | ⟨k, atts, hk⟩
  · omega
  · exact ⟨k, atts, hk⟩

/-! ## C6 -/

/-- Round-to-nearest never goes below the floor. -/
lemma floor_le_roundHalfEven (x : ℚ) : ⌊x⌋ ≤ roundHalfEven x := by
  unfold roundHalfEven
  dsimp only
  split_ifs <;> omega

/-- Round-to-nearest never exceeds the floor plus one. -/
lemma roundHalfEven_le_floor_add_one (x : ℚ) : roundHalfEven x ≤ ⌊x⌋ + 1 := by
  unfold roundHalfEven
  dsimp only
  split_ifs <;> omega

/-- Integers round to themselves. -/
lemma roundHalfEven_intCast (n : ℤ) : roundHalfEven (n : ℚ) = n := by
  unfold roundHalfEven
  rw [Int.floor_intCast]
  rw [if_pos (by norm_num)]

/-- Evaluation of the rounding below the tie point. -/
lemma roundHalfEven_eval_lo {x : ℚ} {f : ℤ} (hf : ⌊x⌋ = f) (hlt : x - f < 1/2) :
    roundHalfEven x = f := by
  unfold roundHalfEven
  rw [hf, if_pos hlt]

/-- Evaluation of the rounding above the tie point. -/
lemma roundHalfEven_eval_hi {x : ℚ} {f : ℤ} (hf : ⌊x⌋ = f) (hgt : 1/2 < x - f) :
    roundHalfEven x = f + 1 := by
  unfold roundHalfEven
  rw [hf, if_neg (by linarith), if_pos hgt]

/-- Round-to-nearest, ties-to-even is monotone. -/
lemma roundHalfEven_mono {x y : ℚ} (h : x ≤ y) : roundHalfEven x ≤ roundHalfEven y := by
  rcases lt_or_eq_of_le (Int.floor_mono h) with hf | hf
  · calc roundHalfEven x ≤ ⌊x⌋ + 1 := roundHalfEven_le_floor_add_one x
      _ ≤ ⌊y⌋ := by omega
      _ ≤ roundHalfEven y := floor_le_roundHalfEven y
  · unfold roundHalfEven
    dsimp only
    rw [← hf]
    have hd : x - (⌊x⌋ : ℚ) ≤ y - (⌊x⌋ : ℚ) := by linarith
    split_ifs <;> first | omega | (exfalso; linarith)

/-- Characterization of `Int.log 2` on the rationals by the enclosing powers
of two. -/
lemma int_log2_eq {x : ℚ} {n : ℤ} (hx : 0 < x) (h1 : (2:ℚ) ^ n ≤ x)
    (h2 : x < (2:ℚ) ^ (n + 1)) : Int.log 2 x = n := by
  have hle := (Int.zpow_le_iff_le_log one_lt_two hx).1 (by push_cast; exact h1)
  have hlt := (Int.lt_zpow_iff_log_lt one_lt_two hx).1 (by push_cast; exact h2)
  omega

/-- The significand sent to the rounding step lies in `[2^52, 2^53)`; its
rounding therefore stays within `[2^52, 2^53]`, giving the two-sided bound of
`flPos` by the enclosing powers of two. -/
lemma flPos_bounds {x : ℚ} (hx : 0 < x) :
    (2:ℚ) ^ (Int.log 2 x) ≤ flPos x ∧ flPos x ≤ (2:ℚ) ^ (Int.log 2 x + 1) := by
  have h2 : (0:ℚ) < 2 := by norm_num
  have hzp : (0:ℚ) < 2 ^ ((52:ℤ) - Int.log 2 x) := zpow_pos h2 _
  have hlow : (2:ℚ) ^ (Int.log 2 x) ≤ x := by
    have := Int.zpow_log_le_self one_lt_two hx
    push_cast at this
    exact this
  have hhigh : x < (2:ℚ) ^ (Int.log 2 x + 1) := by
    have := Int.lt_zpow_succ_log_self one_lt_two x
    push_cast at this
    exact this
  have harg_low : ((2 ^ 52 : ℤ) : ℚ) ≤ x * 2 ^ ((52:ℤ) - Int.log 2 x) := by
    have h := mul_le_mul_of_nonneg_right hlow hzp.le
    rw [← zpow_add₀ (two_ne_zero : (2:ℚ) ≠ 0)] at h
    rw [show Int.log 2 x + ((52:ℤ) - Int.log 2 x) = (52:ℤ) by omega] at h
    calc ((2 ^ 52 : ℤ) : ℚ) = (2:ℚ) ^ (52:ℤ) := by push_cast; norm_num
      _ ≤ x * 2 ^ ((52:ℤ) - Int.log 2 x) := h
  have harg_high : x * 2 ^ ((52:ℤ) - Int.log 2 x) < ((2 ^ 53 : ℤ) : ℚ) := by
    have h := mul_lt_mul_of_pos_right hhigh hzp
    rw [← zpow_add₀ (two_ne_zero : (2:ℚ) ≠ 0)] at h
    rw [show Int.log 2 x + 1 + ((52:ℤ) - Int.log 2 x) = (53:ℤ) by omega] at h
    calc x * 2 ^ ((52:ℤ) - Int.log 2 x) < (2:ℚ) ^ (53:ℤ) := h
      _ = ((2 ^ 53 : ℤ) : ℚ) := by push_cast; norm_num
  have hrhe_low : (2 ^ 52 : ℤ) ≤ roundHalfEven (x * 2 ^ ((52:ℤ) - Int.log 2 x)) :=
    le_trans (Int.le_floor.2 harg_low) (floor_le_roundHalfEven _)
  have hrhe_high : roundHalfEven (x * 2 ^ ((52:ℤ) - Int.log 2 x)) ≤ 2 ^ 53 := by
    have hfl : ⌊x * 2 ^ ((52:ℤ) - Int.log 2 x)⌋ < 2 ^ 53 := Int.floor_lt.2 harg_high
    have := roundHalfEven_le_floor_add_one (x * 2 ^ ((52:ℤ) - Int.log 2 x))
    omega
  have hzp2 : (0:ℚ) ≤ 2 ^ (Int.log 2 x - 52) := (zpow_pos h2 _).le
  constructor
  · have h := mul_le_mul_of_nonneg_right
      (show ((2 ^ 52 : ℤ) : ℚ) ≤ (roundHalfEven (x * 2 ^ ((52:ℤ) - Int.log 2 x)) : ℚ) from
        Int.cast_le.2 hrhe_low) hzp2
    unfold flPos
    calc (2:ℚ) ^ (Int.log 2 x) = ((2 ^ 52 : ℤ) : ℚ) * 2 ^ (Int.log 2 x - 52) := by
          rw [show ((2 ^ 52 : ℤ) : ℚ) = (2:ℚ) ^ (52:ℤ) from by push_cast; norm_num,
            ← zpow_add₀ (two_ne_zero : (2:ℚ) ≠ 0)]
          rw [show (52:ℤ) + (Int.log 2 x - 52) = Int.log 2 x by omega]
      _ ≤ _ := h
  · have h := mul_le_mul_of_nonneg_right
      (show (roundHalfEven (x * 2 ^ ((52:ℤ) - Int.log 2 x)) : ℚ) ≤ ((2 ^ 53 : ℤ) : ℚ) from
        Int.cast_le.2 hrhe_high) hzp2
    unfold flPos
    calc (roundHalfEven (x * 2 ^ ((52:ℤ) - Int.log 2 x)) : ℚ) * 2 ^ (Int.log 2 x - 52)
        ≤ ((2 ^ 53 : ℤ) : ℚ) * 2 ^ (Int.log 2 x - 52) := h
      _ = (2:ℚ) ^ (Int.log 2 x + 1) := by
          rw [show ((2 ^ 53 : ℤ) : ℚ) = (2:ℚ) ^ (53:ℤ) from by push_cast; norm_num,
            ← zpow_add₀ (two_ne_zero : (2:ℚ) ≠ 0)]
          rw [show (53:ℤ) + (Int.log 2 x - 52) = Int.log 2 x + 1 by omega]

/-- `flPos` is positive on positives. -/
lemma flPos_pos {x : ℚ} (hx : 0 < x) : 0 < flPos x :=
  lt_of_lt_of_le (zpow_pos (by norm_num) _) (flPos_bounds hx).1

/-- `flPos` is monotone on positives. -/
lemma flPos_mono {x y : ℚ} (hx : 0 < x) (hxy : x ≤ y) : flPos x ≤ flPos y := by
  have hy : 0 < y := lt_of_lt_of_le hx hxy
  have hlog : Int.log 2 x ≤ Int.log 2 y := Int.log_mono_right hx hxy
  rcases eq_or_lt_of_le hlog with heq | hlt
  · unfold flPos
    rw [← heq]
    have hzp2 : (0:ℚ) ≤ 2 ^ (Int.log 2 x - 52) := (zpow_pos (by norm_num) _).le
    refine mul_le_mul_of_nonneg_right ?_ hzp2
    exact Int.cast_le.2 (roundHalfEven_mono
      (mul_le_mul_of_nonneg_right hxy (zpow_pos (by norm_num : (0:ℚ) < 2) _).le))
  · calc flPos x ≤ (2:ℚ) ^ (Int.log 2 x + 1) := (flPos_bounds hx).2
      _ ≤ (2:ℚ) ^ (Int.log 2 y) := zpow_le_zpow_right₀ one_le_two (by omega)
      _ ≤ flPos y := (flPos_bounds hy).1

/-- `fl` is nonnegative on nonnegatives. -/
lemma fl_nonneg {x : ℚ} (hx : 0 ≤ x) : 0 ≤ fl x := by
  unfold fl
  rcases lt_or_eq_of_le hx with h | h
  · rw [if_pos h]
    exact (flPos_pos h).le
  · rw [← h]
    norm_num

/-- `fl` is monotone on nonnegatives. -/
lemma fl_mono_nonneg {x y : ℚ} (hx : 0 ≤ x) (hxy : x ≤ y) : fl x ≤ fl y := by
  unfold fl
  rcases lt_or_eq_of_le hx with h | h
  · rw [if_pos h, if_pos (lt_of_lt_of_le h hxy)]
    exact flPos_mono h hxy
  · rw [← h]
    norm_num
    rcases lt_or_eq_of_le (h ▸ hxy : (0:ℚ) ≤ y) with hy | hy
    · rw [if_pos hy]
      exact (flPos_pos hy).le
    · rw [← hy]
      norm_num

/-- The binary64 rounding is exact at 1. -/
lemma fl_one : fl 1 = 1 := by
  unfold fl
  rw [if_pos (by norm_num : (0:ℚ) < 1)]
  unfold flPos
  dsimp only
  rw [Int.log_one_right]
  have h1 : (1:ℚ) * 2 ^ ((52:ℤ) - 0) = ((2 ^ 52 : ℤ) : ℚ) := by push_cast; norm_num
  rw [h1, roundHalfEven_intCast]
  rw [show ((2 ^ 52 : ℤ) : ℚ) = (2:ℚ) ^ (52:ℤ) from by push_cast; norm_num,
    ← zpow_add₀ (two_ne_zero : (2:ℚ) ≠ 0)]
  norm_num

/-- The binary64 rounding is exact at 100. -/
lemma fl_hundred : fl 100 = 100 := by
  unfold fl
  rw [if_pos (by norm_num : (0:ℚ) < 100)]
  unfold flPos
  dsimp only
  have hlog : Int.log 2 (100:ℚ) = 6 := int_log2_eq (by norm_num) (by norm_num) (by norm_num)
  rw [hlog]
  have h1 : (100:ℚ) * 2 ^ ((52:ℤ) - 6) = ((100 * 2 ^ 46 : ℤ) : ℚ) := by push_cast; norm_num
  rw [h1, roundHalfEven_intCast]
  rw [show ((100 * 2 ^ 46 : ℤ) : ℚ) = (100:ℚ) * 2 ^ (46:ℤ) from by push_cast; norm_num]
  rw [mul_assoc, ← zpow_add₀ (two_ne_zero : (2:ℚ) ≠ 0)]
  norm_num

/-- C6 (amended): the progress percentage is 0 whenever the total is 0
(regardless of the processed count); for a total of N > 0 it is exactly 100
once the processed count reaches N; and for a fixed total it is monotonically
non-decreasing in the processed count.  (The percentage is the binary64
computation `int((processed / total) * 100)`, which can fall one below the
exact `floor(processed / total * 100)` — see the counterexample at
29 / 100.) -/
theorem C6_progress_properties (total p q : ℕ) :
    calculate_progress p 0 = 0 ∧
    (0 < total → calculate_progress total total = 100) ∧
    (p ≤ q → calculate_progress p total ≤ calculate_progress q total) := by
  refine ⟨rfl, ?_, ?_⟩
  · intro ht
    unfold calculate_progress
    rw [if_pos ht]
    have hne : ((total : ℚ)) ≠ 0 := Nat.cast_ne_zero.2 (by omega)
    rw [div_self hne, fl_one, one_mul, fl_hundred]
    norm_num
  · intro hpq
    unfold calculate_progress
    by_cases ht : 0 < total
    · rw [if_pos ht, if_pos ht]
      have htq : (0:ℚ) < (total : ℚ) := by exact_mod_cast ht
      apply Int.floor_mono
      apply fl_mono_nonneg
      · exact mul_nonneg
          (fl_nonneg (div_nonneg (Nat.cast_nonneg p) (Nat.cast_nonneg total))) (by norm_num)
      · exact mul_le_mul_of_nonneg_right
          (fl_mono_nonneg (div_nonneg (Nat.cast_nonneg p) (Nat.cast_nonneg total))
            ((div_le_div_iff_of_pos_right htq).2 (by exact_mod_cast hpq)))
          (by norm_num)
    · rw [if_neg ht, if_neg ht]

/-- C6 counterexample: at processed = 29, total = 100 the progress tracker
computes `int((29 / 100) * 100)` in binary64 arithmetic, which yields 28 —
one below `floor(29 / 100 × 100) = 29` claimed by the spec, because the
rounded quotient `fl(29/100)` lies just below 29/100 and the rounded product
lands just below 29. -/
theorem C6_counterexample :
    calculate_progress 29 100 = 28 ∧ ⌊((29:ℚ) / 100) * 100⌋ = 29 := by
  constructor
  · unfold calculate_progress
    rw [if_pos (by norm_num : (0:ℕ) < 100)]
    have hx : ((29:ℕ) : ℚ) / ((100:ℕ) : ℚ) = (29:ℚ)/100 := by norm_num
    rw [hx]
    have hpos1 : (0:ℚ) < 29/100 := by norm_num
    have hlog1 : Int.log 2 ((29:ℚ)/100) = -2 := int_log2_eq hpos1 (by norm_num) (by norm_num)
    have hfl1 : fl ((29:ℚ)/100) = ((5224175567749775 : ℤ) : ℚ) * 2 ^ ((-2:ℤ) - 52) := by
      unfold fl
      rw [if_pos hpos1]
      unfold flPos
      dsimp only
      rw [hlog1]
      have hfloor1 : ⌊(29:ℚ)/100 * 2 ^ ((52:ℤ) - (-2))⌋ = 5224175567749775 := by
        rw [show (52:ℤ) - (-2) = (54:ℤ) by norm_num]
        rw [Int.floor_eq_iff]
        norm_num
      rw [roundHalfEven_eval_lo hfloor1
        (by rw [show (52:ℤ) - (-2) = (54:ℤ) by norm_num]; norm_num)]
    rw [hfl1]
    have hyF : ((5224175567749775 : ℤ) : ℚ) * 2 ^ ((-2:ℤ) - 52) * 100 =
        522417556774977500 / 2 ^ (54:ℕ) := by
      rw [zpow_sub₀ (two_ne_zero : (2:ℚ) ≠ 0)]
      push_cast
      norm_num
    rw [hyF]
    have hpos2 : (0:ℚ) < 522417556774977500 / 2 ^ (54:ℕ) := by norm_num
    have hlog2 : Int.log 2 ((522417556774977500:ℚ) / 2 ^ (54:ℕ)) = 4 :=
      int_log2_eq hpos2 (by norm_num) (by norm_num)
    have hfl2 : fl ((522417556774977500:ℚ) / 2 ^ (54:ℕ)) =
        ((8162774324609023 : ℤ) : ℚ) * 2 ^ ((4:ℤ) - 52) := by
      unfold fl
      rw [if_pos hpos2]
      unfold flPos
      dsimp only
      rw [hlog2]
      have hfloor2 : ⌊(522417556774977500:ℚ) / 2 ^ (54:ℕ) * 2 ^ ((52:ℤ) - 4)⌋ =
          8162774324609023 := by
        rw [show (52:ℤ) - 4 = (48:ℤ) by norm_num]
        rw [Int.floor_eq_iff]
        norm_num
      rw [roundHalfEven_eval_lo hfloor2
        (by rw [show (52:ℤ) - 4 = (48:ℤ) by norm_num]; norm_num)]
    rw [hfl2]
    rw [show ((4:ℤ) - 52) = -(48:ℤ) by norm_num, zpow_neg, ← div_eq_mul_inv]
    rw [Int.floor_eq_iff]
    norm_num
  · rw [Int.floor_eq_iff]
    norm_num

/-- Witness for C6 (amended) at concrete counts: total 4 reaches exactly 100
at the 4th increment, progress is monotone from 2 to 3 processed, and a zero
total gives 0. -/
theorem C6_progress_properties_witness :
    ((0:ℕ) < 4 ∧ calculate_progress 4 4 = 100) ∧
    ((2:ℕ) ≤ 3 ∧ calculate_progress 2 4 ≤ calculate_progress 3 4) ∧
    calculate_progress 7 0 = 0 :=
  ⟨⟨by norm_num, (C6_progress_properties 4 2 3).2.1 (by norm_num)⟩,
   ⟨by norm_num, (C6_progress_properties 4 2 3).2.2 (by norm_num)⟩,
   (C6_progress_properties 1 7 9).1⟩
